import Mathlib

/-!
Shallow embedding of the in-memory reminder scheduler of the TaskScheduler
repository (src/src/Scheduler.cpp, src/src/Task.cpp, src/include/core/Scheduler.hpp,
src/include/core/Result.hpp, src/include/database/Exceptions.hpp).

Modelling decisions:
* `std::chrono::system_clock::time_point` is an integer tick count, modelled as `Int`;
  on the reference platform the tick is one nanosecond, so `std::chrono::minutes(n)`
  converts to `n * ticksPerMinute` ticks with `ticksPerMinute = 60 * 10^9`.
* A scheduler callback is an arbitrary `std::function`; the scheduler only observes
  whether an invocation returns normally, throws `NotificationException`, or throws
  any other `std::exception`.  A stored callback is therefore modelled by its
  observable behaviour `CbBehavior`; the argument of `scheduleTask` is an
  `Option CbBehavior`, `none` standing for a null `std::function`.
* `std::multimap<time_point, Event>` is a list of events sorted by `triggerTime`
  (ties kept in insertion order, as `multimap::insert` inserts at the upper bound);
  `eventsSorted` is the map's ordering invariant.
* A `Result<bool>` that the caller receives is either a value or an error code; a
  C++ exception escaping the call is a third outcome.  `Outcome Bool` covers the
  three cases (`ok`, `err`, `thrown`).
* `static_cast<size_t>` and `static_cast<int>` on the capacity comparisons are
  modelled bit-precisely (64-bit `size_t`, 32-bit `int`).
-/

namespace TaskScheduler

/-- The `DbError` enum of src/include/core/Result.hpp. -/
inductive DbError where
  | connectionFailed
  | queryFailed
  | constraintViolation
deriving DecidableEq

/-- The `Task` value type of src/include/core/Task.hpp (field order as declared). -/
structure Task where
  id : Int
  description : String
  dueDate : Int
  createdAt : Int
  reminderTimeBefore : Int
  completed : Bool
deriving DecidableEq

/-- Ticks of `system_clock` per `std::chrono::minutes(1)` (nanosecond ticks). -/
def ticksPerMinute : Int := 60000000000

/-- `Task::getReminderTime`: `dueDate - std::chrono::minutes(reminderTimeBefore)`. -/
def Task.getReminderTime (t : Task) : Int :=
  t.dueDate - t.reminderTimeBefore * ticksPerMinute

/-- `Task::getId`. -/
def Task.getId (t : Task) : Int := t.id

/-- Observable behaviour of a stored callback when the scheduler invokes it:
return normally, throw `NotificationException`, or throw any other exception. -/
inductive CbBehavior where
  | ok
  | notifyFail
  | otherFail
deriving DecidableEq

/-- `Scheduler::Event`: trigger time, callback, task copy. -/
structure Event where
  triggerTime : Int
  cb : CbBehavior
  task : Task
deriving DecidableEq

/-- The scheduler state: the `events` multimap (sorted list) and the three
configuration scalars, with their in-class initialisers as defaults. -/
structure Scheduler where
  events : List Event
  defaultReminderMessage : String
  maxConcurrentTasks : Int
  eventCheckInterval : Int
deriving DecidableEq

/-- A freshly constructed `Scheduler` (all members at their initialisers). -/
def Scheduler.init : Scheduler :=
  { events := []
    defaultReminderMessage := "Task reminder"
    maxConcurrentTasks := 10
    eventCheckInterval := 1000 }

/-- Exceptions that escape a scheduler operation to the caller. -/
inductive Exc where
  | taskSchedulingExc (msg : String)
deriving DecidableEq

/-- Outcome of one scheduler call: a returned value, a returned error code
(`std::unexpected`), or an escaping C++ exception. -/
inductive Outcome (α : Type) where
  | ok (val : α)
  | err (e : DbError)
  | thrown (e : Exc)
deriving DecidableEq

/-- `static_cast<size_t>` of a C++ `int` value (64-bit `size_t`); the modulus
is the literal 2^64. -/
def sizeTOfInt (m : Int) : Nat := (m % 18446744073709551616).toNat

/-- `static_cast<int>` of a `size_t` value (32-bit two's-complement `int`); the
literals are 2^32 and 2^31. -/
def intOfSizeT (n : Nat) : Int :=
  if (n : Int) % 4294967296 < 2147483648 then (n : Int) % 4294967296
  else (n : Int) % 4294967296 - 4294967296

/-- `events.insert({event.triggerTime, event})` on the multimap: the new element
goes after every element whose key is not greater (upper-bound insertion). -/
def mmInsert (e : Event) : List Event → List Event
  | [] => [e]
  | x :: xs =>
    if x.triggerTime ≤ e.triggerTime then x :: mmInsert e xs
    else e :: x :: xs

/-- The multimap ordering invariant: events are sorted by trigger time. -/
def eventsSorted (l : List Event) : Prop :=
  l.Pairwise (fun a b => a.triggerTime ≤ b.triggerTime)

instance (l : List Event) : Decidable (eventsSorted l) := by
  unfold eventsSorted
  infer_instance

/-- `Scheduler::scheduleTask` (src/src/Scheduler.cpp lines 8-33).
`now` is the value of `std::chrono::system_clock::now()` at line 18. -/
def Scheduler.scheduleTask (s : Scheduler) (task : Task) (callback : Option CbBehavior)
    (now : Int) : Outcome Bool × Scheduler :=
  match callback with
  | none => (.err .constraintViolation, s)
  | some cb =>
    if sizeTOfInt s.maxConcurrentTasks ≤ s.events.length then
      (.err .constraintViolation, s)
    else
      let reminderTime := task.getReminderTime
      if reminderTime ≤ now then
        (.thrown (.taskSchedulingExc "Reminder time has already passed"), s)
      else
        (.ok true, { s with events := mmInsert ⟨reminderTime, cb, task⟩ s.events })

/-- The `while` loop of `Scheduler::checkAndTriggerEvents` (lines 41-53), together
with the surrounding try/catch: returns the call result, the sequence of events
whose callback was invoked (in invocation order), and the remaining registry.
A due event whose callback throws `NotificationException` is erased like a
successful one; any other exception becomes a `SchedulerException`, caught at
line 56 and turned into `std::unexpected(QueryFailed)`, the failing event and
everything after it still in the map. -/
def runEvents (now : Int) : List Event → Outcome Bool × List Event × List Event
  | [] => (.ok true, [], [])
  | e :: rest =>
    if e.triggerTime ≤ now then
      match e.cb with
      | .ok =>
        let r := runEvents now rest
        (r.1, e :: r.2.1, r.2.2)
      | .notifyFail =>
        let r := runEvents now rest
        (r.1, e :: r.2.1, r.2.2)
      | .otherFail => (.err .queryFailed, [e], e :: rest)
    else
      (.ok true, [], e :: rest)

/-- `Scheduler::checkAndTriggerEvents` (src/src/Scheduler.cpp lines 35-59).
`now` is captured once at line 36. -/
def Scheduler.checkAndTriggerEvents (s : Scheduler) (now : Int) : Outcome Bool × Scheduler :=
  let r := runEvents now s.events
  (r.1, { s with events := r.2.2 })

/-- The events whose callback `checkAndTriggerEvents` invokes, in invocation order. -/
def Scheduler.firedEvents (s : Scheduler) (now : Int) : List Event :=
  (runEvents now s.events).2.1

/-- `std::find_if` + `erase` of `Scheduler::cancelTask`: remove the first event
(in map order) whose task id equals `taskId`; `none` when there is no match. -/
def removeFirstMatch (taskId : Int) : List Event → Option (List Event)
  | [] => none
  | e :: rest =>
    if e.task.getId = taskId then some rest
    else (removeFirstMatch taskId rest).map (fun l => e :: l)

/-- `Scheduler::cancelTask` (src/src/Scheduler.cpp lines 61-82). -/
def Scheduler.cancelTask (s : Scheduler) (taskId : Int) : Outcome Bool × Scheduler :=
  if taskId ≤ 0 then (.err .constraintViolation, s)
  else
    match removeFirstMatch taskId s.events with
    | none => (.ok false, s)
    | some evs => (.ok true, { s with events := evs })

/-- `Scheduler::setMaxConcurrentTasks` (src/src/Scheduler.cpp lines 84-96). -/
def Scheduler.setMaxConcurrentTasks (s : Scheduler) (maxTasks : Int) : Bool × Scheduler :=
  if maxTasks ≤ 0 then (false, s)
  else if maxTasks < intOfSizeT s.events.length then (false, s)
  else (true, { s with maxConcurrentTasks := maxTasks })

/-- `Scheduler::setDefaultReminderMessage` (src/src/Scheduler.cpp lines 98-105). -/
def Scheduler.setDefaultReminderMessage (s : Scheduler) (message : String) : Bool × Scheduler :=
  if message = "" then (false, s)
  else (true, { s with defaultReminderMessage := message })

/-- `Scheduler::getPendingEventsCount`: `events.size()`. -/
def Scheduler.getPendingEventsCount (s : Scheduler) : Nat := s.events.length

/-- `Scheduler::getMaxConcurrentTasks`. -/
def Scheduler.getMaxConcurrentTasks (s : Scheduler) : Int := s.maxConcurrentTasks

/-- `Scheduler::getDefaultReminderMessage`. -/
def Scheduler.getDefaultReminderMessage (s : Scheduler) : String := s.defaultReminderMessage

/-- Scheduler states reachable from a fresh `Scheduler` by the public mutating
operations.  The argument of `setMaxConcurrentTasks` is a C++ `int`, hence
bounded; time arguments stand for the `system_clock::now()` captures. -/
inductive Reachable : Scheduler → Prop where
  | init : Reachable Scheduler.init
  | schedule (s : Scheduler) (task : Task) (cb : Option CbBehavior) (now : Int) :
      Reachable s → Reachable (s.scheduleTask task cb now).2
  | check (s : Scheduler) (now : Int) :
      Reachable s → Reachable (s.checkAndTriggerEvents now).2
  | cancel (s : Scheduler) (taskId : Int) :
      Reachable s → Reachable (s.cancelTask taskId).2
  | setMax (s : Scheduler) (m : Int) :
      -((2 : Int) ^ 31) ≤ m → m < (2 : Int) ^ 31 →
      Reachable s → Reachable (s.setMaxConcurrentTasks m).2
  | setMsg (s : Scheduler) (msg : String) :
      Reachable s → Reachable (s.setDefaultReminderMessage msg).2

/-- The capacity invariant maintained by every reachable scheduler state. -/
def Inv (s : Scheduler) : Prop :=
  (s.events.length : Int) ≤ s.maxConcurrentTasks ∧ 0 < s.maxConcurrentTasks ∧
    s.maxConcurrentTasks < (2 : Int) ^ 31

/-! Concrete fixtures used by counterexamples and witnesses. -/

/-- A task with due date at tick 3 and zero reminder offset (reminder time 3). -/
def taskA : Task := ⟨1, "task a", 3, 0, 0, false⟩

/-- A task with due date at tick 5 and zero reminder offset (reminder time 5). -/
def taskB : Task := ⟨2, "task b", 5, 0, 0, false⟩

/-- A task whose reminder time (tick 7000) is far in the future of the fixtures. -/
def taskC : Task := ⟨3, "task c", 7000, 0, 0, false⟩

/-- An event due at tick 3 whose callback succeeds. -/
def evA : Event := ⟨3, .ok, taskA⟩

/-- An event due at tick 5 whose callback throws `NotificationException`. -/
def evB : Event := ⟨5, .notifyFail, taskB⟩

/-- An event due at tick 5 whose callback throws a non-notification exception. -/
def evFatal : Event := ⟨5, .otherFail, taskB⟩

/-- A fresh scheduler holding only `evA`. -/
def sOne : Scheduler := { Scheduler.init with events := [evA] }

/-- A fresh scheduler holding `evA` then `evB` (sorted by trigger time). -/
def sTwo : Scheduler := { Scheduler.init with events := [evA, evB] }

/-- A fresh scheduler holding only the fatally-failing event `evFatal`. -/
def sFatal : Scheduler := { Scheduler.init with events := [evFatal] }

/-! Helper lemmas about the embedded operations. -/

/-- `mmInsert` puts the new event somewhere in the list, keeping everything else. -/
lemma mmInsert_split (e : Event) (l : List Event) :
    ∃ l1 l2, mmInsert e l = l1 ++ e :: l2 ∧ l1 ++ l2 = l := by
  induction l with
  | nil => exact ⟨[], [], rfl, rfl⟩
  | cons x xs ih =>
    by_cases h : x.triggerTime ≤ e.triggerTime
    · obtain ⟨l1, l2, h1, h2⟩ := ih
      exact ⟨x :: l1, l2, by simp [mmInsert, h, h1], by simp [h2]⟩
    · exact ⟨[], x :: xs, by simp [mmInsert, h], rfl⟩

/-- `mmInsert` grows the registry by exactly one event. -/
lemma mmInsert_length (e : Event) (l : List Event) :
    (mmInsert e l).length = l.length + 1 := by
  induction l with
  | nil => rfl
  | cons x xs ih =>
    by_cases h : x.triggerTime ≤ e.triggerTime
    · simp [mmInsert, h, ih]
    · simp [mmInsert, h]

/-- A prefix of due events whose callbacks do not throw fatally is worked off,
and the scan continues on the rest of the list. -/
lemma runEvents_append (now : Int) (l1 l2 : List Event)
    (h : ∀ x ∈ l1, x.triggerTime ≤ now ∧ x.cb ≠ CbBehavior.otherFail) :
    runEvents now (l1 ++ l2) =
      ((runEvents now l2).1, l1 ++ (runEvents now l2).2.1, (runEvents now l2).2.2) := by
  induction l1 with
  | nil => rfl
  | cons x l1 ih =>
    obtain ⟨hdue, hcb⟩ := h x (List.mem_cons_self x l1)
    have ih2 := ih (fun y hy => h y (List.mem_cons_of_mem x hy))
    cases hx : x.cb with
    | ok => simp [runEvents, hdue, hx, ih2]
    | notifyFail => simp [runEvents, hdue, hx, ih2]
    | otherFail => exact absurd hx hcb

/-- On a sorted registry with no fatally-failing due callback, the scan removes
exactly the due events, fires them in list order, and returns success. -/
lemma runEvents_no_fatal (now : Int) (l : List Event) (hs : eventsSorted l)
    (hcb : ∀ e ∈ l, e.triggerTime ≤ now → e.cb ≠ CbBehavior.otherFail) :
    runEvents now l =
      (.ok true, l.filter (fun e => decide (e.triggerTime ≤ now)),
        l.filter (fun e => decide (now < e.triggerTime))) := by
  induction l with
  | nil => rfl
  | cons x l ih =>
    rw [eventsSorted, List.pairwise_cons] at hs
    obtain ⟨hall, htail⟩ := hs
    by_cases hdue : x.triggerTime ≤ now
    · have hcbx := hcb x (List.mem_cons_self x l) hdue
      have ih2 := ih htail (fun e he hd => hcb e (List.mem_cons_of_mem x he) hd)
      have hnotfut : ¬ now < x.triggerTime := not_lt.mpr hdue
      cases hx : x.cb with
      | ok => simp [runEvents, hdue, hx, ih2, hnotfut]
      | notifyFail => simp [runEvents, hdue, hx, ih2, hnotfut]
      | otherFail => exact absurd hx hcbx
    · have hfut : now < x.triggerTime := not_le.mp hdue
      have hallfut : ∀ e ∈ l, now < e.triggerTime :=
        fun e he => lt_of_lt_of_le hfut (hall e he)
      have h1 : l.filter (fun e => decide (e.triggerTime ≤ now)) = [] := by
        rw [List.filter_eq_nil_iff]
        intro e he
        simp [not_le.mpr (hallfut e he)]
      have h2 : l.filter (fun e => decide (now < e.triggerTime)) = l := by
        rw [List.filter_eq_self]
        intro e he
        simp [hallfut e he]
      simp [runEvents, hdue, h1, h2, hfut]

/-- The scan's call result is either the success flag `true` or `QueryFailed`. -/
lemma runEvents_result (now : Int) (l : List Event) :
    (runEvents now l).1 = .ok true ∨ (runEvents now l).1 = .err DbError.queryFailed := by
  induction l with
  | nil => exact Or.inl rfl
  | cons x l ih =>
    by_cases hdue : x.triggerTime ≤ now
    · cases hx : x.cb with
      | ok => simpa [runEvents, hdue, hx] using ih
      | notifyFail => simpa [runEvents, hdue, hx] using ih
      | otherFail => simp [runEvents, hdue, hx]
    · simp [runEvents, hdue]

/-- The registry left behind by the scan is a sublist of the original registry. -/
lemma runEvents_remaining_sublist (now : Int) (l : List Event) :
    ((runEvents now l).2.2).Sublist l := by
  induction l with
  | nil => simp [runEvents]
  | cons x l ih =>
    by_cases hdue : x.triggerTime ≤ now
    · cases hx : x.cb with
      | ok => simpa [runEvents, hdue, hx] using List.Sublist.cons x ih
      | notifyFail => simpa [runEvents, hdue, hx] using List.Sublist.cons x ih
      | otherFail => simp [runEvents, hdue, hx]
    · simp [runEvents, hdue]

/-- `removeFirstMatch` finds nothing exactly when no event carries the id. -/
lemma removeFirstMatch_eq_none (taskId : Int) (l : List Event) :
    removeFirstMatch taskId l = none ↔ ∀ e ∈ l, e.task.getId ≠ taskId := by
  induction l with
  | nil => simp [removeFirstMatch]
  | cons x l ih =>
    by_cases hx : x.task.getId = taskId
    · simp [removeFirstMatch, hx]
    · simp [removeFirstMatch, hx, Option.map_eq_none', ih]

/-- A successful `removeFirstMatch` removes exactly the first matching event. -/
lemma removeFirstMatch_some (taskId : Int) (l r : List Event)
    (h : removeFirstMatch taskId l = some r) :
    ∃ l1 m l2, l = l1 ++ m :: l2 ∧ r = l1 ++ l2 ∧ m.task.getId = taskId ∧
      ∀ x ∈ l1, x.task.getId ≠ taskId := by
  induction l generalizing r with
  | nil => simp [removeFirstMatch] at h
  | cons x l ih =>
    by_cases hx : x.task.getId = taskId
    · rw [removeFirstMatch, if_pos hx] at h
      injection h with h
      exact ⟨[], x, l, by simp, by simp [h], hx, by simp⟩
    · rw [removeFirstMatch, if_neg hx] at h
      cases hr : removeFirstMatch taskId l with
      | none => rw [hr] at h; simp at h
      | some r2 =>
        rw [hr] at h
        simp only [Option.map_some'] at h
        injection h with h
        obtain ⟨l1, m, l2, he, hr2, hm, hl1⟩ := ih r2 hr
        refine ⟨x :: l1, m, l2, by simp [he], by simp [← h, hr2], hm, ?_⟩
        intro y hy
        rcases List.mem_cons.mp hy with rfl | hy2
        · exact hx
        · exact hl1 y hy2

/-- On in-range positive values the `size_t` cast is the identity. -/
lemma sizeTOfInt_of_range (m : Int) (h0 : 0 < m) (h1 : m < (2 : Int) ^ 31) :
    (sizeTOfInt m : Int) = m := by
  unfold sizeTOfInt
  have h2 : m < 18446744073709551616 := lt_trans h1 (by norm_num)
  rw [Int.emod_eq_of_lt (le_of_lt h0) h2]
  exact Int.toNat_of_nonneg (le_of_lt h0)

/-- On small sizes the `int` cast is the identity. -/
lemma intOfSizeT_of_small (n : Nat) (h : (n : Int) < (2 : Int) ^ 31) :
    intOfSizeT n = n := by
  unfold intOfSizeT
  have h0 : (0 : Int) ≤ (n : Int) := Int.natCast_nonneg n
  have hsmall : (n : Int) < 2147483648 := by
    have h31 : ((2 : Int) ^ 31) = 2147483648 := by norm_num
    rw [h31] at h
    exact h
  have hlt : (n : Int) < 4294967296 := lt_trans hsmall (by norm_num)
  rw [Int.emod_eq_of_lt h0 hlt, if_pos hsmall]

/-- Every reachable scheduler state satisfies the capacity invariant. -/
lemma reachable_inv (s : Scheduler) (h : Reachable s) : Inv s := by
  induction h with
  | init =>
    refine ⟨by norm_num [Scheduler.init], by norm_num [Scheduler.init],
      by norm_num [Scheduler.init]⟩
  | schedule s task cb now hs ih =>
    cases cb with
    | none => exact ih
    | some cb =>
      by_cases hcap : sizeTOfInt s.maxConcurrentTasks ≤ s.events.length
      · simp only [Scheduler.scheduleTask, if_pos hcap]
        exact ih
      · by_cases hrem : task.getReminderTime ≤ now
        · simp only [Scheduler.scheduleTask, if_neg hcap, if_pos hrem]
          exact ih
        · simp only [Scheduler.scheduleTask, if_neg hcap, if_neg hrem]
          refine ⟨?_, ih.2.1, ih.2.2⟩
          have hlen : s.events.length < sizeTOfInt s.maxConcurrentTasks :=
            lt_of_not_le hcap
          have hmax : (sizeTOfInt s.maxConcurrentTasks : Int) = s.maxConcurrentTasks :=
            sizeTOfInt_of_range _ ih.2.1 ih.2.2
          have hlen2 : (s.events.length : Int) < s.maxConcurrentTasks := by
            rw [← hmax]
            exact_mod_cast hlen
          simp only [mmInsert_length]
          push_cast
          omega
  | check s now hs ih =>
    have hsub := (runEvents_remaining_sublist now s.events).length_le
    refine ⟨?_, ih.2.1, ih.2.2⟩
    have h1 := ih.1
    simp only [Scheduler.checkAndTriggerEvents]
    have : ((runEvents now s.events).2.2.length : Int) ≤ (s.events.length : Int) := by
      exact_mod_cast hsub
    omega
  | cancel s taskId hs ih =>
    by_cases h0 : taskId ≤ 0
    · simp only [Scheduler.cancelTask, if_pos h0]
      exact ih
    · simp only [Scheduler.cancelTask, if_neg h0]
      cases hr : removeFirstMatch taskId s.events with
      | none => exact ih
      | some evs =>
        obtain ⟨l1, m, l2, he, hrw, _, _⟩ := removeFirstMatch_some taskId s.events evs hr
        refine ⟨?_, ih.2.1, ih.2.2⟩
        have h1 := ih.1
        have hlen : evs.length ≤ s.events.length := by
          subst hrw
          rw [he]
          simp
        have : (evs.length : Int) ≤ (s.events.length : Int) := by exact_mod_cast hlen
        simp only []
        omega
  | setMax s m hlo hhi hs ih =>
    by_cases h0 : m ≤ 0
    · simp only [Scheduler.setMaxConcurrentTasks, if_pos h0]
      exact ih
    · by_cases h2 : m < intOfSizeT s.events.length
      · simp only [Scheduler.setMaxConcurrentTasks, if_neg h0, if_pos h2]
        exact ih
      · simp only [Scheduler.setMaxConcurrentTasks, if_neg h0, if_neg h2]
        have hsmall : (s.events.length : Int) < (2 : Int) ^ 31 :=
          lt_of_le_of_lt ih.1 ih.2.2
        rw [intOfSizeT_of_small s.events.length hsmall] at h2
        exact ⟨le_of_not_lt h2, lt_of_not_le h0, hhi⟩
  | setMsg s msg hs ih =>
    by_cases hm : msg = ""
    · simp only [Scheduler.setDefaultReminderMessage, if_pos hm]
      exact ih
    · simp only [Scheduler.setDefaultReminderMessage, if_neg hm]
      exact ih

/-! Claim theorems. -/

/-- C1 (counterexample): on a registry holding one due event whose callback throws
a non-notification exception, `checkAndTriggerEvents` at time 10 does not remove
the due event — the registry is not the future-events-only remainder the claim
demands, and the call reports an error rather than success. -/
theorem checkAndTriggerEvents_fatal_counterexample :
    evFatal.triggerTime ≤ 10 ∧
    (sFatal.checkAndTriggerEvents 10).2.events ≠
      sFatal.events.filter (fun e => decide (10 < e.triggerTime)) ∧
    (sFatal.checkAndTriggerEvents 10).1 = .err DbError.queryFailed := by
  refine ⟨by decide, by decide, by decide⟩

/-- C1 (amended): provided no due event's callback raises a failure other than a
notification-delivery failure, `checkAndTriggerEvents` returns success, removes
exactly the events whose trigger time is at most the time captured at the start
of the call (leaving exactly the future ones, so a call with no due event
changes nothing), and invokes the due events' callbacks in ascending
trigger-time order. -/
theorem checkAndTriggerEvents_processes_due_events (s : Scheduler) (now : Int)
    (hs : eventsSorted s.events)
    (hcb : ∀ e ∈ s.events, e.triggerTime ≤ now → e.cb ≠ CbBehavior.otherFail) :
    (s.checkAndTriggerEvents now).1 = .ok true ∧
    (s.checkAndTriggerEvents now).2.events =
      s.events.filter (fun e => decide (now < e.triggerTime)) ∧
    s.firedEvents now = s.events.filter (fun e => decide (e.triggerTime ≤ now)) ∧
    eventsSorted (s.firedEvents now) ∧
    ((∀ e ∈ s.events, now < e.triggerTime) → (s.checkAndTriggerEvents now).2 = s) := by
  have h := runEvents_no_fatal now s.events hs hcb
  refine ⟨?_, ?_, ?_, ?_, ?_⟩
  · simp [Scheduler.checkAndTriggerEvents, h]
  · simp [Scheduler.checkAndTriggerEvents, h]
  · simp [Scheduler.firedEvents, h]
  · have hf : s.firedEvents now = s.events.filter (fun e => decide (e.triggerTime ≤ now)) := by
      simp [Scheduler.firedEvents, h]
    rw [eventsSorted] at hs ⊢
    rw [hf]
    exact hs.filter _
  · intro hfut
    have h2 : s.events.filter (fun e => decide (now < e.triggerTime)) = s.events := by
      rw [List.filter_eq_self]
      intro e he
      simp [hfut e he]
    simp [Scheduler.checkAndTriggerEvents, h, h2]

/-- C1 (witness): the amended theorem applied to the registry `[evA, evB]` at
time 4, where only `evA` is due. -/
theorem checkAndTriggerEvents_processes_due_events_witness :
    eventsSorted sTwo.events ∧
    (∀ e ∈ sTwo.events, e.triggerTime ≤ 4 → e.cb ≠ CbBehavior.otherFail) ∧
    ((sTwo.checkAndTriggerEvents 4).1 = .ok true ∧
      (sTwo.checkAndTriggerEvents 4).2.events =
        sTwo.events.filter (fun e => decide ((4 : Int) < e.triggerTime)) ∧
      sTwo.firedEvents 4 = sTwo.events.filter (fun e => decide (e.triggerTime ≤ (4 : Int))) ∧
      eventsSorted (sTwo.firedEvents 4) ∧
      ((∀ e ∈ sTwo.events, (4 : Int) < e.triggerTime) → (sTwo.checkAndTriggerEvents 4).2 = sTwo)) :=
  ⟨by decide, by decide,
    checkAndTriggerEvents_processes_due_events sTwo 4 (by decide) (by decide)⟩

/-- C3: a due event whose callback raises a notification-delivery failure has its
callback invoked, is removed from the registry without retry, later due events
are still processed (the registry ends up holding exactly the future events),
and the call still returns success. -/
theorem checkAndTriggerEvents_notifyFail_continues (s : Scheduler) (now : Int)
    (e : Event) (hs : eventsSorted s.events)
    (he : e ∈ s.events) (hdue : e.triggerTime ≤ now)
    (hcbe : e.cb = CbBehavior.notifyFail)
    (hcb : ∀ x ∈ s.events, x.triggerTime ≤ now → x.cb ≠ CbBehavior.otherFail) :
    (s.checkAndTriggerEvents now).1 = .ok true ∧
    e ∈ s.firedEvents now ∧
    e ∉ (s.checkAndTriggerEvents now).2.events ∧
    (s.checkAndTriggerEvents now).2.events =
      s.events.filter (fun x => decide (now < x.triggerTime)) := by
  have h := runEvents_no_fatal now s.events hs hcb
  refine ⟨?_, ?_, ?_, ?_⟩
  · simp [Scheduler.checkAndTriggerEvents, h]
  · simp only [Scheduler.firedEvents, h]
    exact List.mem_filter.mpr ⟨he, by simp [hdue]⟩
  · simp only [Scheduler.checkAndTriggerEvents, h]
    intro hmem
    have := (List.mem_filter.mp hmem).2
    simp [not_lt.mpr hdue] at this
  · simp [Scheduler.checkAndTriggerEvents, h]

/-- C3 (witness): the theorem applied to the registry `[evA, evB]` at time 10,
where `evB` is due and fails delivery while `evA` before it succeeds. -/
theorem checkAndTriggerEvents_notifyFail_continues_witness :
    eventsSorted sTwo.events ∧ evB ∈ sTwo.events ∧ evB.triggerTime ≤ 10 ∧
    evB.cb = CbBehavior.notifyFail ∧
    (∀ x ∈ sTwo.events, x.triggerTime ≤ 10 → x.cb ≠ CbBehavior.otherFail) ∧
    ((sTwo.checkAndTriggerEvents 10).1 = .ok true ∧
      evB ∈ sTwo.firedEvents 10 ∧
      evB ∉ (sTwo.checkAndTriggerEvents 10).2.events ∧
      (sTwo.checkAndTriggerEvents 10).2.events =
        sTwo.events.filter (fun x => decide ((10 : Int) < x.triggerTime))) :=
  ⟨by decide, by decide, by decide, by decide, by decide,
    checkAndTriggerEvents_notifyFail_continues sTwo 10 evB (by decide) (by decide)
      (by decide) (by decide) (by decide)⟩

/-- C4: when the scan reaches a due event whose callback raises a failure other
than a notification failure, the pass is aborted with a scheduler-level error
and the registry keeps the failing event and everything after it. -/
theorem checkAndTriggerEvents_fatal_aborts (s : Scheduler) (now : Int)
    (l1 l2 : List Event) (e : Event)
    (he : s.events = l1 ++ e :: l2)
    (hpre : ∀ x ∈ l1, x.triggerTime ≤ now ∧ x.cb ≠ CbBehavior.otherFail)
    (hdue : e.triggerTime ≤ now) (hcbe : e.cb = CbBehavior.otherFail) :
    (s.checkAndTriggerEvents now).1 = .err DbError.queryFailed ∧
    (s.checkAndTriggerEvents now).2.events = e :: l2 := by
  have h := runEvents_append now l1 (e :: l2) hpre
  have h2 : runEvents now (e :: l2) = (.err DbError.queryFailed, [e], e :: l2) := by
    simp [runEvents, hdue, hcbe]
  constructor
  · simp [Scheduler.checkAndTriggerEvents, he, h, h2]
  · simp [Scheduler.checkAndTriggerEvents, he, h, h2]

/-- C4 (witness): the theorem applied to the registry `[evA, evFatal]` at time
10: `evA` fires, then `evFatal` aborts the pass, staying in the registry. -/
theorem checkAndTriggerEvents_fatal_aborts_witness :
    ({ Scheduler.init with events := [evA, evFatal] } : Scheduler).events =
        [evA] ++ evFatal :: [] ∧
    (∀ x ∈ [evA], x.triggerTime ≤ 10 ∧ x.cb ≠ CbBehavior.otherFail) ∧
    evFatal.triggerTime ≤ 10 ∧ evFatal.cb = CbBehavior.otherFail ∧
    ((({ Scheduler.init with events := [evA, evFatal] } : Scheduler).checkAndTriggerEvents 10).1 =
        .err DbError.queryFailed ∧
      (({ Scheduler.init with events := [evA, evFatal] } : Scheduler).checkAndTriggerEvents 10).2.events =
        evFatal :: []) :=
  ⟨by decide, by decide, by decide, by decide,
    checkAndTriggerEvents_fatal_aborts { Scheduler.init with events := [evA, evFatal] } 10
      [evA] [] evFatal (by decide) (by decide) (by decide) (by decide)⟩

/-- C2: with a non-null callback, free capacity, and a reminder time strictly in
the future, `scheduleTask` returns success, grows the pending-event count by
exactly one, and the inserted event's trigger time is exactly
`dueDate - reminderOffset` (offset in minutes) while all other events are kept. -/
theorem scheduleTask_future_reminder_succeeds (s : Scheduler) (task : Task)
    (cb : CbBehavior) (now : Int)
    (hcap : s.events.length < sizeTOfInt s.maxConcurrentTasks)
    (hfut : now < task.getReminderTime) :
    (s.scheduleTask task (some cb) now).1 = .ok true ∧
    (s.scheduleTask task (some cb) now).2.getPendingEventsCount =
      s.getPendingEventsCount + 1 ∧
    ∃ l1 l2,
      (s.scheduleTask task (some cb) now).2.events =
        l1 ++ (⟨task.dueDate - task.reminderTimeBefore * ticksPerMinute, cb, task⟩ : Event) :: l2 ∧
      l1 ++ l2 = s.events := by
  have hcap2 : ¬ sizeTOfInt s.maxConcurrentTasks ≤ s.events.length := not_le.mpr hcap
  have hrem : ¬ task.getReminderTime ≤ now := not_le.mpr hfut
  refine ⟨?_, ?_, ?_⟩
  · simp [Scheduler.scheduleTask, hcap2, hrem]
  · simp [Scheduler.scheduleTask, hcap2, hrem, Scheduler.getPendingEventsCount,
      mmInsert_length]
  · simp only [Scheduler.scheduleTask, if_neg hcap2, if_neg hrem]
    exact mmInsert_split _ _

/-- C2 (witness): scheduling `taskC` (reminder time 7000) on a fresh scheduler
at time 5. -/
theorem scheduleTask_future_reminder_succeeds_witness :
    Scheduler.init.events.length < sizeTOfInt Scheduler.init.maxConcurrentTasks ∧
    (5 : Int) < taskC.getReminderTime ∧
    ((Scheduler.init.scheduleTask taskC (some .ok) 5).1 = .ok true ∧
      (Scheduler.init.scheduleTask taskC (some .ok) 5).2.getPendingEventsCount =
        Scheduler.init.getPendingEventsCount + 1 ∧
      ∃ l1 l2,
        (Scheduler.init.scheduleTask taskC (some .ok) 5).2.events =
          l1 ++ (⟨taskC.dueDate - taskC.reminderTimeBefore * ticksPerMinute, .ok, taskC⟩ : Event) :: l2 ∧
        l1 ++ l2 = Scheduler.init.events) :=
  ⟨by decide, by decide,
    scheduleTask_future_reminder_succeeds Scheduler.init taskC .ok 5 (by decide) (by decide)⟩

/-- C5: with a non-null callback and free capacity, a task whose reminder time is
not strictly in the future makes `scheduleTask` fail by throwing the
scheduling-specific `TaskSchedulingException` ("Reminder time has already
passed"), leaving the state — hence the pending-event count — unchanged. -/
theorem scheduleTask_past_reminder_throws (s : Scheduler) (task : Task)
    (cb : CbBehavior) (now : Int)
    (hcap : s.events.length < sizeTOfInt s.maxConcurrentTasks)
    (hpast : task.getReminderTime ≤ now) :
    s.scheduleTask task (some cb) now =
      (.thrown (.taskSchedulingExc "Reminder time has already passed"), s) ∧
    (s.scheduleTask task (some cb) now).2.getPendingEventsCount =
      s.getPendingEventsCount := by
  have hcap2 : ¬ sizeTOfInt s.maxConcurrentTasks ≤ s.events.length := not_le.mpr hcap
  constructor
  · simp [Scheduler.scheduleTask, hcap2, hpast]
  · simp [Scheduler.scheduleTask, hcap2, hpast]

/-- C5 (witness): scheduling `taskA` (reminder time 3) on a fresh scheduler at
time 10, i.e. after the reminder moment. -/
theorem scheduleTask_past_reminder_throws_witness :
    Scheduler.init.events.length < sizeTOfInt Scheduler.init.maxConcurrentTasks ∧
    taskA.getReminderTime ≤ 10 ∧
    (Scheduler.init.scheduleTask taskA (some .ok) 10 =
        (.thrown (.taskSchedulingExc "Reminder time has already passed"), Scheduler.init) ∧
      (Scheduler.init.scheduleTask taskA (some .ok) 10).2.getPendingEventsCount =
        Scheduler.init.getPendingEventsCount) :=
  ⟨by decide, by decide,
    scheduleTask_past_reminder_throws Scheduler.init taskA .ok 10 (by decide) (by decide)⟩

/-- C6: `scheduleTask` with a null callback, or with the registry size not below
`maxConcurrentTasks`, returns the constraint-violation error and leaves the
scheduler — hence the pending-event count — unchanged. -/
theorem scheduleTask_constraint_rejections (s : Scheduler) (task : Task)
    (callback : Option CbBehavior) (now : Int)
    (h : callback = none ∨ sizeTOfInt s.maxConcurrentTasks ≤ s.events.length) :
    s.scheduleTask task callback now = (.err DbError.constraintViolation, s) := by
  rcases h with rfl | hcap
  · rfl
  · cases callback with
    | none => rfl
    | some cb => simp [Scheduler.scheduleTask, hcap]

/-- C6 (witness): scheduling on a scheduler whose capacity was lowered to its
pending count (one event) is rejected without inserting. -/
theorem scheduleTask_constraint_rejections_witness :
    ((some CbBehavior.ok : Option CbBehavior) = none ∨
      sizeTOfInt ({ sOne with maxConcurrentTasks := 1 } : Scheduler).maxConcurrentTasks ≤
        ({ sOne with maxConcurrentTasks := 1 } : Scheduler).events.length) ∧
    ({ sOne with maxConcurrentTasks := 1 } : Scheduler).scheduleTask taskC (some .ok) 5 =
      (.err DbError.constraintViolation, { sOne with maxConcurrentTasks := 1 }) :=
  ⟨by decide,
    scheduleTask_constraint_rejections { sOne with maxConcurrentTasks := 1 } taskC
      (some .ok) 5 (by decide)⟩

/-- C7: `cancelTask` rejects a non-positive id with a constraint error; with a
positive id and no matching event it returns `false` leaving the registry
unchanged; with a positive id and a matching event it removes exactly one
matching event and the count drops by one, returning `true`. -/
theorem cancelTask_spec (s : Scheduler) (taskId : Int) :
    (taskId ≤ 0 → s.cancelTask taskId = (.err DbError.constraintViolation, s)) ∧
    (0 < taskId → (∀ e ∈ s.events, e.task.getId ≠ taskId) →
      s.cancelTask taskId = (.ok false, s)) ∧
    (0 < taskId → (∃ e ∈ s.events, e.task.getId = taskId) →
      ∃ l1 m l2, s.events = l1 ++ m :: l2 ∧ m.task.getId = taskId ∧
        s.cancelTask taskId = (.ok true, { s with events := l1 ++ l2 }) ∧
        (s.cancelTask taskId).2.getPendingEventsCount + 1 = s.getPendingEventsCount) := by
  refine ⟨?_, ?_, ?_⟩
  · intro h0
    simp [Scheduler.cancelTask, h0]
  · intro hpos hnone
    have hnot : ¬ taskId ≤ 0 := not_le.mpr hpos
    have hr : removeFirstMatch taskId s.events = none :=
      (removeFirstMatch_eq_none _ _).mpr hnone
    simp [Scheduler.cancelTask, hnot, hr]
  · intro hpos hex
    have hnot : ¬ taskId ≤ 0 := not_le.mpr hpos
    cases hr : removeFirstMatch taskId s.events with
    | none =>
      obtain ⟨e, he, hid⟩ := hex
      exact absurd hid ((removeFirstMatch_eq_none _ _).mp hr e he)
    | some evs =>
      obtain ⟨l1, m, l2, he, hrw, hm, _⟩ := removeFirstMatch_some _ _ _ hr
      have hcall : s.cancelTask taskId = (.ok true, { s with events := l1 ++ l2 }) := by
        simp [Scheduler.cancelTask, hnot, hr, hrw]
      refine ⟨l1, m, l2, he, hm, hcall, ?_⟩
      rw [hcall]
      simp [Scheduler.getPendingEventsCount, he]
      omega

/-- C7 (witness): cancelling task id 2 on the registry `[evA, evB]` removes
exactly `evB`; id 1 matches `evA`; the non-positive id 0 is rejected. -/
theorem cancelTask_spec_witness :
    (0 : Int) < 2 ∧ (∃ e ∈ sTwo.events, e.task.getId = 2) ∧
    (∃ l1 m l2, sTwo.events = l1 ++ m :: l2 ∧ m.task.getId = 2 ∧
      sTwo.cancelTask 2 = (.ok true, { sTwo with events := l1 ++ l2 }) ∧
      (sTwo.cancelTask 2).2.getPendingEventsCount + 1 = sTwo.getPendingEventsCount) :=
  ⟨by decide, by decide, (cancelTask_spec sTwo 2).2.2 (by decide) (by decide)⟩

/-- C10: on a sorted registry, cancelling a positive id that has at least one
match removes the first match in ascending trigger-time order — an event whose
trigger time is minimal among all events carrying that id, whatever the order
the events were scheduled in. -/
theorem cancelTask_removes_earliest_match (s : Scheduler) (taskId : Int)
    (hs : eventsSorted s.events) (hpos : 0 < taskId)
    (hex : ∃ e ∈ s.events, e.task.getId = taskId) :
    ∃ l1 m l2, s.events = l1 ++ m :: l2 ∧ m.task.getId = taskId ∧
      (∀ x ∈ l1, x.task.getId ≠ taskId) ∧
      s.cancelTask taskId = (.ok true, { s with events := l1 ++ l2 }) ∧
      ∀ x ∈ s.events, x.task.getId = taskId → m.triggerTime ≤ x.triggerTime := by
  have hnot : ¬ taskId ≤ 0 := not_le.mpr hpos
  cases hr : removeFirstMatch taskId s.events with
  | none =>
    obtain ⟨e, he, hid⟩ := hex
    exact absurd hid ((removeFirstMatch_eq_none _ _).mp hr e he)
  | some evs =>
    obtain ⟨l1, m, l2, he, hrw, hm, hl1⟩ := removeFirstMatch_some _ _ _ hr
    refine ⟨l1, m, l2, he, hm, hl1, ?_, ?_⟩
    · simp [Scheduler.cancelTask, hnot, hr, hrw]
    · intro x hx hxid
      rw [he] at hx
      rcases List.mem_append.mp hx with hx1 | hx2
      · exact absurd hxid (hl1 x hx1)
      · rcases List.mem_cons.mp hx2 with rfl | hx3
        · exact le_refl _
        · rw [eventsSorted, he, List.pairwise_append] at hs
          exact (List.pairwise_cons.mp hs.2.1).1 x hx3

/-- C10 (witness): the theorem applied to the sorted registry `[evA, evB]` and
id 2, whose only match is `evB`. -/
theorem cancelTask_removes_earliest_match_witness :
    eventsSorted sTwo.events ∧ (0 : Int) < 2 ∧
    (∃ e ∈ sTwo.events, e.task.getId = 2) ∧
    (∃ l1 m l2, sTwo.events = l1 ++ m :: l2 ∧ m.task.getId = 2 ∧
      (∀ x ∈ l1, x.task.getId ≠ 2) ∧
      sTwo.cancelTask 2 = (.ok true, { sTwo with events := l1 ++ l2 }) ∧
      ∀ x ∈ sTwo.events, x.task.getId = 2 → m.triggerTime ≤ x.triggerTime) :=
  ⟨by decide, by decide, by decide,
    cancelTask_removes_earliest_match sTwo 2 (by decide) (by decide) (by decide)⟩

/-- C8 (counterexample): the success value of `checkAndTriggerEvents` is the
boolean `true` whether one or two events were triggered, so the call does not
return the count of triggered events. -/
theorem checkAndTriggerEvents_no_count_counterexample :
    (sOne.checkAndTriggerEvents 10).1 = .ok true ∧
    (sTwo.checkAndTriggerEvents 10).1 = .ok true ∧
    (sOne.firedEvents 10).length = 1 ∧
    (sTwo.firedEvents 10).length = 2 := by
  refine ⟨by decide, by decide, by decide, by decide⟩

/-- C8 (amended): `checkAndTriggerEvents` returns `Result<bool>`; on success the
returned value is always the flag `true`, with no triggered-event count. -/
theorem checkAndTriggerEvents_success_is_true (s : Scheduler) (now : Int) (b : Bool)
    (h : (s.checkAndTriggerEvents now).1 = .ok b) : b = true := by
  rcases runEvents_result now s.events with hr | hr
  · have : (s.checkAndTriggerEvents now).1 = .ok true := by
      simp [Scheduler.checkAndTriggerEvents, hr]
    rw [this] at h
    injection h.symm
  · have : (s.checkAndTriggerEvents now).1 = .err DbError.queryFailed := by
      simp [Scheduler.checkAndTriggerEvents, hr]
    rw [this] at h
    exact absurd h (by simp)

/-- C8 (witness): the amended theorem applied to the scheduler `sOne` at time
10, whose check call succeeds. -/
theorem checkAndTriggerEvents_success_is_true_witness :
    (sOne.checkAndTriggerEvents 10).1 = .ok true ∧ true = true :=
  ⟨by decide, checkAndTriggerEvents_success_is_true sOne 10 true (by decide)⟩

/-- C9: in every reachable scheduler state the pending-event count is at most
`maxConcurrentTasks` and `maxConcurrentTasks` is positive; the invariant is
preserved because `setMaxConcurrentTasks` rejects (returns `false`, state
unchanged) any non-positive value or any value below the pending count, and
`scheduleTask` refuses insertion once the registry is at capacity. -/
theorem scheduler_capacity_invariant (s : Scheduler) (h : Reachable s) :
    (s.getPendingEventsCount : Int) ≤ s.maxConcurrentTasks ∧
    0 < s.maxConcurrentTasks ∧
    (∀ v : Int, v ≤ 0 ∨ v < (s.getPendingEventsCount : Int) →
      s.setMaxConcurrentTasks v = (false, s)) ∧
    (∀ (task : Task) (cb : Option CbBehavior) (now : Int),
      s.maxConcurrentTasks ≤ (s.getPendingEventsCount : Int) →
      s.scheduleTask task cb now = (.err DbError.constraintViolation, s)) := by
  obtain ⟨h1, h2, h3⟩ := reachable_inv s h
  refine ⟨h1, h2, ?_, ?_⟩
  · intro v hv
    by_cases h0 : v ≤ 0
    · simp [Scheduler.setMaxConcurrentTasks, h0]
    · rcases hv with hv | hv
      · exact absurd hv h0
      · have hlen : (s.events.length : Int) < (2 : Int) ^ 31 := lt_of_le_of_lt h1 h3
        have hcast := intOfSizeT_of_small s.events.length hlen
        have hv2 : v < intOfSizeT s.events.length := by
          rw [hcast]
          exact hv
        simp [Scheduler.setMaxConcurrentTasks, h0, hv2]
  · intro task cb now hcap
    cases cb with
    | none => rfl
    | some cb =>
      have hc := sizeTOfInt_of_range s.maxConcurrentTasks h2 h3
      have hsz : sizeTOfInt s.maxConcurrentTasks ≤ s.events.length := by
        have : (sizeTOfInt s.maxConcurrentTasks : Int) ≤ (s.events.length : Int) := by
          rw [hc]
          exact hcap
        exact_mod_cast this
      simp [Scheduler.scheduleTask, hsz]

/-- C9 (witness): the invariant theorem applied to the freshly constructed
scheduler, together with one instantiated rejection: lowering capacity to 0 is
refused. -/
theorem scheduler_capacity_invariant_witness :
    (Scheduler.init.getPendingEventsCount : Int) ≤ Scheduler.init.maxConcurrentTasks ∧
    0 < Scheduler.init.maxConcurrentTasks ∧
    Scheduler.init.setMaxConcurrentTasks 0 = (false, Scheduler.init) :=
  ⟨(scheduler_capacity_invariant Scheduler.init Reachable.init).1,
    (scheduler_capacity_invariant Scheduler.init Reachable.init).2.1,
    (scheduler_capacity_invariant Scheduler.init Reachable.init).2.2.1 0 (Or.inl (by decide))⟩

end TaskScheduler
